import Mathlib

/-!
Shallow embedding of the neighbour-search subsystem of `nbp`
(`nbp/neighbours.py`, with the constructor context of `nbp/sysmodule.py`).

Modelling conventions:
* Machine floats are modelled by exact rationals (`ℚ`); a particle position is a
  `Vec3` of rationals.
* The source stores Euclidean distances `d = sqrt(dx² + dy² + dz²)`
  (`np.linalg.norm`).  A square root is irrational in general, so every stored
  distance is represented here by its square `d²`; the source's comparisons
  `0 < d` and `d ≤ cutoff` become `0 < d²` and `d² ≤ cutoff²`, which are
  equivalent for the nonnegative real values involved.
* Python exceptions are modelled with `Except String`.
* Python lists / numpy arrays indexed by integers are modelled by `List` with
  `List.getD` (all lookups relevant to the claims are shown, or separately
  proved, to be in bounds).
* The per-particle dictionaries `_neighbours_frame_IDs` / `_neighbours_frame_dist`
  hold two parallel lists per key; they are modelled as one list of rows of
  `(neighbourId, squaredDistance)` pairs, one row per particle id.
-/

namespace nbp

/-- A 3-dimensional position with exact rational coordinates. -/
structure Vec3 where
  x : ℚ
  y : ℚ
  z : ℚ
deriving DecidableEq

instance : Inhabited Vec3 := ⟨⟨0, 0, 0⟩⟩

/-- The `while` loop of `Neighbours._create_subcells`:
`while self._skin_radius < self._box_length / self._subcells_inrow: self._subcells_inrow += 1`.
The guard `skin < L / m` is written `m * skin < L` (equivalent for `m ≥ 1`);
the conjunct `0 < skin` totalises the recursion (the source loop diverges for
`skin ≤ 0`, a case never reached from the constructor). -/
def subcellLoop (L skin : ℚ) (m : ℕ) : ℕ :=
  if 0 < skin ∧ (m : ℚ) * skin < L then subcellLoop L skin (m + 1) else m
termination_by ⌈L / skin⌉.toNat + 1 - m
decreasing_by
  rename_i h
  obtain ⟨hs, hm⟩ := h
  have h1 : ((m : ℤ) : ℚ) < L / skin := by
    push_cast
    exact (lt_div_iff₀ hs).mpr hm
  have h2 : (m : ℤ) < ⌈L / skin⌉ := Int.lt_ceil.mpr h1
  have h3 : m < ⌈L / skin⌉.toNat := by omega
  omega

/-- `Neighbours._create_subcells`: the loop starts from `self._subcells_inrow = 1`. -/
def subcellsInRow (L skin : ℚ) : ℕ := subcellLoop L skin 1

/-- `subcell_length = self._box_length / self._subcells_inrow`. -/
def subcellLength (L skin : ℚ) : ℚ := L / (subcellsInRow L skin : ℚ)

/-- `Neighbours._find_subcell`: per-axis `math.floor(position[axis] / self._subcell_length)`,
a `ValueError` when any axis id is negative, otherwise the linearised id
`x + y*m + z*m²`.  (The source's `except OverflowError: pass` concerns float
infinities only and has no rational counterpart.) -/
def findSubcell (len : ℚ) (m : ℕ) (p : Vec3) : Except String ℕ :=
  let cx := ⌊p.x / len⌋
  let cy := ⌊p.y / len⌋
  let cz := ⌊p.z / len⌋
  if cx < 0 ∨ cy < 0 ∨ cz < 0 then
    Except.error "ValueError: subcell_id value is negative"
  else
    Except.ok (cx + cy * (m : ℤ) + cz * (m : ℤ) ^ 2).natAbs

/-- One iteration of the particle loop in `Neighbours._create_neighbours`:
`self._neighbour_list[i] = int(self._start_index[subcell_id]);
self._start_index[subcell_id] = int(i)`, where an out-of-range `subcell_id`
raises `IndexError` on the first read, which the source catches with `pass`,
leaving both arrays unchanged (the particle is silently dropped). -/
def insertParticle (m3 : ℕ) (st : List ℤ × List ℤ) (i : ℕ) (cid : ℕ) : List ℤ × List ℤ :=
  if cid < m3 then (st.1.set cid (i : ℤ), st.2.set i (st.1.getD cid (-1)))
  else st

/-- The particle loop of `Neighbours._create_neighbours` over the (index, subcell)
results; a `ValueError` escaping `_find_subcell` aborts the whole build. -/
def createNeighboursAux (m3 : ℕ) :
    List (ℕ × Except String ℕ) → List ℤ × List ℤ → Except String (List ℤ × List ℤ)
  | [], st => Except.ok st
  | (_, Except.error e) :: _, _ => Except.error e
  | (i, Except.ok cid) :: rest, st => createNeighboursAux m3 rest (insertParticle m3 st i cid)

/-- `Neighbours._create_neighbours`: `head` (`_start_index`) of size `m³` and
`next` (`_neighbour_list`) of size `N`, both initialised to `-1`, then one
insertion per particle in id order. -/
def createNeighbours (L skin : ℚ) (positions : List Vec3) : Except String (List ℤ × List ℤ) :=
  let m := subcellsInRow L skin
  let len := L / (m : ℚ)
  let m3 := m ^ 3
  createNeighboursAux m3
    (positions.enum.map (fun ip => (ip.1, findSubcell len m ip.2)))
    (List.replicate m3 (-1), List.replicate positions.length (-1))

/-- `Neighbours._3d_subcell_id`: per-axis `math.floor(particle_pos[axis] / self._subcell_length)`. -/
def subcellId3d (len : ℚ) (p : Vec3) : ℤ × ℤ × ℤ :=
  (⌊p.x / len⌋, ⌊p.y / len⌋, ⌊p.z / len⌋)

/-- `Neighbours._cell_y`: `positive == 0` takes `floor((y + len) / len)`, otherwise
`floor((y - len) / len)` (the source's parameter naming is inverted; the code is
transcribed as written). -/
def cellY (len : ℚ) (positive : ℕ) (p : Vec3) : ℤ :=
  if positive = 0 then ⌊(p.y + len) / len⌋ else ⌊(p.y - len) / len⌋

/-- `Neighbours._cell_z`, exactly analogous to `_cell_y` on the z axis. -/
def cellZ (len : ℚ) (positive : ℕ) (p : Vec3) : ℤ :=
  if positive = 0 then ⌊(p.z + len) / len⌋ else ⌊(p.z - len) / len⌋

/-- The pre-wrap 3d coordinates assigned to stencil entry `k` (0 ≤ k < 27) by
`Neighbours._get_neighbours_subcells`: rows start from `_3d_subcell_id`; cells
0-8 get x-coordinate `floor((x - len)/len)`, cells 18-26 get
`floor((x + len)/len)`; the y rows use `_cell_y` on the two listed index sets
and the z rows use `_cell_z` on the two listed index sets. -/
def stencilCoords (len : ℚ) (p : Vec3) (k : ℕ) : ℤ × ℤ × ℤ :=
  let base := subcellId3d len p
  let cx : ℤ :=
    if k < 9 then ⌊(p.x - len) / len⌋
    else if k < 18 then base.1
    else ⌊(p.x + len) / len⌋
  let cy : ℤ :=
    if k ∈ [0, 1, 2, 9, 10, 11, 18, 19, 20] then cellY len 1 p
    else if k ∈ [6, 7, 8, 15, 16, 17, 24, 25, 26] then cellY len 0 p
    else base.2.1
  let cz : ℤ :=
    if k ∈ [0, 3, 6, 9, 12, 15, 18, 21, 24] then cellZ len 1 p
    else if k ∈ [2, 5, 8, 11, 14, 17, 20, 23, 26] then cellZ len 0 p
    else base.2.2
  (cx, cy, cz)

/-- The per-axis wrap in `_get_neighbours_subcells`:
`if c < 0: c = m - 1` followed by `if c > m - 1: c = 0`. -/
def wrapCoord (m : ℕ) (c : ℤ) : ℤ :=
  let c1 := if c < 0 then (m : ℤ) - 1 else c
  if c1 > (m : ℤ) - 1 then 0 else c1

/-- The linearised id of stencil entry `k`:
`subcell_id = x + y*m + z*m²` after wrapping each axis. -/
def stencilCellId (len : ℚ) (m : ℕ) (p : Vec3) (k : ℕ) : ℕ :=
  let c := stencilCoords len p k
  (wrapCoord m c.1 + wrapCoord m c.2.1 * (m : ℤ) + wrapCoord m c.2.2 * (m : ℤ) ^ 2).natAbs

/-- `Neighbours._get_neighbours_subcells`: the list of the 27 stencil subcell ids. -/
def neighbourSubcells (len : ℚ) (m : ℕ) (p : Vec3) : List ℕ :=
  (List.range 27).map (stencilCellId len m p)

/-- The candidate-gathering `while index >= 0` walk of `_neighbours_for_one`,
with explicit fuel; every use supplies fuel `next.length`, which suffices
because the built `next` links strictly decrease (proved below). -/
def chainWalk (next : List ℤ) : ℕ → ℤ → List ℕ
  | 0, _ => []
  | fuel + 1, idx =>
    if 0 ≤ idx then idx.natAbs :: chainWalk next fuel (next.getD idx.natAbs (-1))
    else []

/-- The candidate loop of `_neighbours_for_one`: for each of the 27 stencil
subcells, walk its chain from `start_array` through `_neighbour_list`. -/
def candidatesFor (head next : List ℤ) (stencil : List ℕ) : List ℕ :=
  stencil.flatMap (fun c => chainWalk next next.length (head.getD c (-1)))

/-- The per-axis distance of `_neighbours_for_one`: `abs(a - b)`, replaced by
`box_length - abs(a - b)` when it exceeds `l = 2 * subcell_length`. -/
def axisDistance (L len a b : ℚ) : ℚ :=
  let d := |a - b|
  if d > 2 * len then L - d else d

/-- The squared Euclidean norm of the corrected axis distances; the source
stores `distance = np.linalg.norm(distance_3d)`, represented here by this
square. -/
def distanceSq (L len : ℚ) (p q : Vec3) : ℚ :=
  axisDistance L len p.x q.x ^ 2 + axisDistance L len p.y q.y ^ 2 +
    axisDistance L len p.z q.z ^ 2

/-- The filter of `_neighbours_for_one`: keep candidate `index` only when
`index > particle_ID`, then only when `0 < distance <= cutoff` — in squared
form `0 < d² ∧ d² ≤ cutoff²`. -/
def keepPair (L len cutoff : ℚ) (positions : List Vec3) (particleId : ℕ) (j : ℕ) :
    Option (ℕ × ℚ) :=
  if particleId < j then
    let dsq := distanceSq L len (positions.getD particleId default) (positions.getD j default)
    if 0 < dsq ∧ dsq ≤ cutoff ^ 2 then some (j, dsq) else none
  else none

/-- `Neighbours._neighbours_for_one`: the parallel result lists
`(nb_ID, nb_dist)` are modelled as one list of pairs. -/
def neighboursForOne (L len cutoff : ℚ) (m : ℕ) (positions : List Vec3)
    (head next : List ℤ) (particleId : ℕ) : List (ℕ × ℚ) :=
  (candidatesFor head next (neighbourSubcells len m (positions.getD particleId default))).filterMap
    (keepPair L len cutoff positions particleId)

/-- The symmetrisation step of `_create_neighbours_frame`: append `(i, d)` to
row `nb_index` for one `(nb_index, d)` of `nb` (dictionary keyed by particle id,
modelled as a pre-sized list of rows). -/
def frameAddSym (i : ℕ) (rows : List (List (ℕ × ℚ))) (e : ℕ × ℚ) : List (List (ℕ × ℚ)) :=
  rows.set e.1 (rows.getD e.1 [] ++ [(i, e.2)])

/-- One iteration of the particle loop of `_create_neighbours_frame`: merge
`nb = _neighbours_for_one(i)` into row `i` (create-or-append), then append the
mirrored `(i, d)` entries to the rows of all `nb_index` in `nb.nb_ID`. -/
def frameStep (pairsOf : ℕ → List (ℕ × ℚ)) (rows : List (List (ℕ × ℚ))) (i : ℕ) :
    List (List (ℕ × ℚ)) :=
  (pairsOf i).foldl (frameAddSym i) (rows.set i (rows.getD i [] ++ pairsOf i))

/-- `Neighbours._create_neighbours_frame`.  `SystemInfo.num_particles` is called
here but is not defined anywhere under src/; modelled from the spec (§4.4
`rebuild(N)`: "for each particle id 0..N-1"): `N` is the number of particles,
i.e. `positions.length`. -/
def createNeighboursFrame (L len cutoff : ℚ) (m : ℕ) (positions : List Vec3)
    (head next : List ℤ) : List (List (ℕ × ℚ)) :=
  (List.range positions.length).foldl
    (frameStep (neighboursForOne L len cutoff m positions head next))
    (List.replicate positions.length [])

/-- Exact-real model of `np.sqrt(d) > t` for one entry `d` of
`positions_old**2 - positions_current**2`: a negative `d` yields NaN, and
`NaN > t` is false; for `d ≥ 0`, `sqrt d > t` iff `t < 0` or `t² < d`. -/
def sqrtGtB (d t : ℚ) : Bool :=
  decide (0 ≤ d) && (decide (t < 0) || decide (t ^ 2 < d))

/-- The entries of `positions_old**2 - positions_current**2` (elementwise, over
the `(N,3)` position arrays). -/
def movementSqEntries (old cur : List Vec3) : List ℚ :=
  (old.zip cur).flatMap
    (fun oc => [oc.1.x ^ 2 - oc.2.x ^ 2, oc.1.y ^ 2 - oc.2.y ^ 2, oc.1.z ^ 2 - oc.2.z ^ 2])

/-- The rebuild test of `Neighbours.update_neighbours`:
`np.max(np.sqrt(positions_old**2 - positions_current**2)) > (skin - cutoff)`.
`np.sqrt` of a negative entry is NaN, `np.max` propagates NaN, and a NaN
maximum compares false; otherwise the maximum exceeds the margin iff some
entry's square root does. -/
def codeShouldRebuild (old cur : List Vec3) (margin : ℚ) : Bool :=
  (movementSqEntries old cur).all (fun d => decide (0 ≤ d)) &&
    (movementSqEntries old cur).any (fun d => sqrtGtB d margin)

/-- The mutable attributes of a `Neighbours` object. -/
structure NState where
  startIndex : List ℤ
  neighbourList : List ℤ
  frame : List (List (ℕ × ℚ))
  lastUpdate : ℕ
  updateCount : ℕ
deriving DecidableEq

/-- `Neighbours.update_neighbours`.  `self.SystemState` is the state captured at
construction, so `_create_neighbours_frame` always recomputes the frame from
`constructionPositions` and the current `_start_index` / `_neighbour_list`;
`positions_old` is `self.System.states()[self._last_update].positions()` and
`positions_current` is `self.System.state().positions()` (the last state).  On
the rebuild branch the source evaluates `self._create_neigbours` (sic), an
attribute that exists nowhere on the class, so the call raises
`AttributeError`, modelled as `Except.error`; otherwise the trailing
`self._update_count = + 1` sets the counter to the constant `1`. -/
def updateNeighbours (L skin cutoff : ℚ) (m : ℕ) (len : ℚ)
    (constructionPositions : List Vec3) (states : List (List Vec3)) (s : NState) :
    Except String NState :=
  let frame2 := createNeighboursFrame L len cutoff m constructionPositions
    s.startIndex s.neighbourList
  let positionsOld := states.getD s.lastUpdate []
  let positionsCurrent := states.getLastD []
  if codeShouldRebuild positionsOld positionsCurrent (skin - cutoff) then
    Except.error "AttributeError: Neighbours object has no attribute _create_neigbours"
  else
    Except.ok { s with frame := frame2, updateCount := 1 }

/-- Modelled from the spec: `SystemInfo.worse_sigma` is called by
`Neighbours.__init__` (`self._skin_radius = self.SystemInfo.worse_sigma() * 3`)
but is defined nowhere under src/.  Spec §6: the skin-radius basis is "the
largest interaction-range parameter across particle types"; `SystemInfo` holds
a single `sigma`, so the largest is `sigma` itself. -/
def worseSigma (sigma : ℚ) : ℚ := sigma

/-- `SystemInfo.__init__`: `cutoff = sigma * 3`,
`char_length = ceil(characteristic_length / cutoff) * cutoff`, and a
`ValueError` unless `cutoff ≤ char_length / 2`.  Returns
`(char_length, cutoff)`. -/
def systemInfoInit (characteristicLength sigma : ℚ) : Except String (ℚ × ℚ) :=
  let cutoff := sigma * 3
  let charLength := (⌈characteristicLength / cutoff⌉ : ℚ) * cutoff
  if cutoff ≤ charLength / 2 then Except.ok (charLength, cutoff)
  else Except.error "ValueError: The cutoff radius must be smaller than characteristic length divided by 2."

/-- `Neighbours.__init__`: skin radius `worse_sigma() * 3`, subcell grid,
linked-cell build, then the first frame; `_last_update = 0` and
`_update_count = 0`. -/
def neighboursInit (L cutoff sigma : ℚ) (positions : List Vec3) : Except String NState :=
  let skin := worseSigma sigma * 3
  let m := subcellsInRow L skin
  let len := L / (m : ℚ)
  match createNeighbours L skin positions with
  | Except.error e => Except.error e
  | Except.ok hn =>
    Except.ok { startIndex := hn.1, neighbourList := hn.2,
                frame := createNeighboursFrame L len cutoff m positions hn.1 hn.2,
                lastUpdate := 0, updateCount := 0 }

/-- Modelled from the spec (§4.5 `shouldRebuild`): the per-particle Euclidean
displacement `‖old_i − cur_i‖`, compared in squared form; rebuild when the
maximum displacement exceeds the margin, i.e. when some particle's
displacement exceeds it. -/
def specShouldRebuild (old cur : List Vec3) (margin : ℚ) : Bool :=
  (old.zip cur).any (fun oc =>
    sqrtGtB ((oc.1.x - oc.2.x) ^ 2 + (oc.1.y - oc.2.y) ^ 2 + (oc.1.z - oc.2.z) ^ 2) margin)

/-- Modelled from the spec (glossary, "minimum-image convention"): the squared
true minimum-image distance for coordinates already wrapped into `[0, L)` —
per axis the shorter of the direct and the wrapped-around separation. -/
def minImageDistSq (L : ℚ) (p q : Vec3) : ℚ :=
  min |p.x - q.x| (L - |p.x - q.x|) ^ 2 + min |p.y - q.y| (L - |p.y - q.y|) ^ 2 +
    min |p.z - q.z| (L - |p.z - q.z|) ^ 2

/-- All three coordinates lie in the box `[0, L)`. -/
def inBox (L : ℚ) (p : Vec3) : Prop :=
  0 ≤ p.x ∧ p.x < L ∧ 0 ≤ p.y ∧ p.y < L ∧ 0 ≤ p.z ∧ p.z < L

instance (L : ℚ) (p : Vec3) : Decidable (inBox L p) := by
  unfold inBox
  infer_instance


/-- Proof-side projection of `findSubcell`: the subcell id computed for a
particle (0 in the error case, which the ok-path lemmas never hit). -/
def cellVal (len : ℚ) (m : ℕ) (p : Vec3) : ℕ :=
  match findSubcell len m p with
  | Except.ok c => c
  | Except.error _ => 0

/-- Proof-side form of the per-axis stencil offsets of entry `k` of the 3×3×3
cube enumerated by `_get_neighbours_subcells` (x blocks of 9, y blocks of 3,
z cyclic). -/
def stencilOffset (k : ℕ) : ℤ × ℤ × ℤ :=
  ((k / 9 : ℕ) - 1, ((k % 9) / 3 : ℕ) - 1, ((k % 3 : ℕ) : ℤ) - 1)

/-- Proof-side closed form of the mirrored (symmetrised) entries that rows
receive from earlier particles during `_create_neighbours_frame`. -/
def mirroredEntries (pairsOf : ℕ → List (ℕ × ℚ)) (n a : ℕ) : List (ℕ × ℚ) :=
  (List.range n).flatMap
    (fun i => ((pairsOf i).filter (fun e => e.1 = a)).map (fun e => (i, e.2)))

/-- The invariant maintained by the linked-cell build after the particles with
ids below `b` have been processed. -/
structure BuildInv (len : ℚ) (m : ℕ) (positions : List Vec3) (b : ℕ)
    (st : List ℤ × List ℤ) : Prop where
  headLen : st.1.length = m ^ 3
  nextLen : st.2.length = positions.length
  nextLt : ∀ k : ℕ, st.2.getD k (-1) < (k : ℤ)
  nextLtB : ∀ k : ℕ, st.2.getD k (-1) < (b : ℤ)
  headLtB : ∀ c : ℕ, st.1.getD c (-1) < (b : ℤ)
  headCell : ∀ c j : ℕ, st.1.getD c (-1) = (j : ℤ) →
    cellVal len m (positions.getD j default) = c
  nextCell : ∀ k j : ℕ, st.2.getD k (-1) = (j : ℤ) →
    cellVal len m (positions.getD j default) = cellVal len m (positions.getD k default)


/-! ### Basic facts about the subcell loop -/

lemma subcellLoop_step {L skin : ℚ} {m : ℕ} (h1 : 0 < skin) (h2 : (m : ℚ) * skin < L) :
    subcellLoop L skin m = subcellLoop L skin (m + 1) := by
  rw [subcellLoop.eq_def]
  simp [h1, h2]

lemma subcellLoop_done {L skin : ℚ} {m : ℕ} (h : ¬(0 < skin ∧ (m : ℚ) * skin < L)) :
    subcellLoop L skin m = m := by
  rw [subcellLoop.eq_def]
  simp [h]

lemma subcellLoop_le (L skin : ℚ) (m : ℕ) : m ≤ subcellLoop L skin m := by
  induction m using subcellLoop.induct L skin with
  | case1 m h ih =>
    rw [subcellLoop_step h.1 h.2]
    omega
  | case2 m h =>
    rw [subcellLoop_done h]

lemma one_le_subcellsInRow (L skin : ℚ) : 1 ≤ subcellsInRow L skin :=
  subcellLoop_le L skin 1

lemma subcellLoop_bound (L skin : ℚ) (m : ℕ) (h : 0 < skin) :
    L ≤ (subcellLoop L skin m : ℚ) * skin := by
  induction m using subcellLoop.induct L skin with
  | case1 m hc ih =>
    rw [subcellLoop_step hc.1 hc.2]
    exact ih
  | case2 m hc =>
    rw [subcellLoop_done hc]
    push_neg at hc
    exact hc h

lemma subcellsInRow_10_3 : subcellsInRow 10 3 = 4 := by
  rw [subcellsInRow, subcellLoop_step (by norm_num) (by norm_num),
    subcellLoop_step (by norm_num) (by norm_num), subcellLoop_step (by norm_num) (by norm_num),
    subcellLoop_done (by norm_num)]

lemma subcellsInRow_12_3 : subcellsInRow 12 3 = 4 := by
  rw [subcellsInRow, subcellLoop_step (by norm_num) (by norm_num),
    subcellLoop_step (by norm_num) (by norm_num), subcellLoop_step (by norm_num) (by norm_num),
    subcellLoop_done (by norm_num)]

lemma subcellsInRow_6_3 : subcellsInRow 6 3 = 2 := by
  rw [subcellsInRow, subcellLoop_step (by norm_num) (by norm_num),
    subcellLoop_done (by norm_num)]

lemma subcellsInRow_9_9 : subcellsInRow 9 9 = 1 := by
  rw [subcellsInRow, subcellLoop_done (by norm_num)]

lemma subcellsInRow_10_4 : subcellsInRow 10 4 = 3 := by
  rw [subcellsInRow, subcellLoop_step (by norm_num) (by norm_num),
    subcellLoop_step (by norm_num) (by norm_num), subcellLoop_done (by norm_num)]

/-! ### List access helpers -/

lemma getD_set_eval {α : Type} (l : List α) (i k : ℕ) (v d : α) :
    (l.set i v).getD k d = if i = k ∧ i < l.length then v else l.getD k d := by
  rcases Decidable.em (i = k) with h | h
  · subst h
    by_cases hl : i < l.length
    · simp [List.getD_eq_getElem?_getD, List.getElem?_set_self hl, hl]
    · have h1 : (l.set i v)[i]? = none := List.getElem?_eq_none (by simpa using Nat.le_of_not_lt hl)
      have h2 : l[i]? = none := List.getElem?_eq_none (Nat.le_of_not_lt hl)
      simp [List.getD_eq_getElem?_getD, h1, h2, hl]
  · simp [List.getD_eq_getElem?_getD, List.getElem?_set_ne h, h]

lemma getD_replicate_eval {α : Type} (n k : ℕ) (x d : α) :
    (List.replicate n x).getD k d = if k < n then x else d := by
  by_cases h : k < n
  · simp [List.getD_eq_getElem?_getD, List.getElem?_replicate, h]
  · simp [List.getD_eq_getElem?_getD, List.getElem?_replicate, h]

/-! ### Invariants of the linked-cell build -/

lemma insertParticle_inv {len : ℚ} {m m3 : ℕ} {positions : List Vec3} {b : ℕ}
    {st : List ℤ × List ℤ} {cid : ℕ}
    (hcell : findSubcell len m (positions.getD b default) = Except.ok cid)
    (hinv : BuildInv len m positions b st) :
    BuildInv len m positions (b + 1) (insertParticle m3 st b cid) := by
  have hcv : cellVal len m (positions.getD b default) = cid := by
    unfold cellVal
    rw [hcell]
  unfold insertParticle
  by_cases hc : cid < m3
  · rw [if_pos hc]
    refine ⟨?_, ?_, ?_, ?_, ?_, ?_, ?_⟩
    · simpa using hinv.headLen
    · simpa using hinv.nextLen
    · intro k
      rw [getD_set_eval]
      split
      · rename_i hbk
        have := hinv.headLtB cid
        omega
      · exact hinv.nextLt k
    · intro k
      rw [getD_set_eval]
      split
      · rename_i hbk
        have := hinv.headLtB cid
        omega
      · have := hinv.nextLtB k
        omega
    · intro c
      rw [getD_set_eval]
      split
      · rename_i hbk
        omega
      · have := hinv.headLtB c
        omega
    · intro c j hj
      rw [getD_set_eval] at hj
      split at hj
      · rename_i hbk
        have hjb : j = b := by exact_mod_cast hj.symm
        rw [hjb, hcv, hbk.1]
      · exact hinv.headCell c j hj
    · intro k j hj
      rw [getD_set_eval] at hj
      split at hj
      · rename_i hbk
        have hcell2 := hinv.headCell cid j hj
        rw [hcell2, ← hbk.1, hcv]
      · exact hinv.nextCell k j hj
  · rw [if_neg hc]
    refine ⟨hinv.headLen, hinv.nextLen, hinv.nextLt, ?_, ?_, hinv.headCell, hinv.nextCell⟩
    · intro k
      have := hinv.nextLtB k
      omega
    · intro c
      have := hinv.headLtB c
      omega

lemma createNeighboursAux_inv (len : ℚ) (m m3 : ℕ) (positions : List Vec3) :
    ∀ (ps : List Vec3) (b : ℕ) (st hn : List ℤ × List ℤ),
      (∀ k, ps.getD k default = positions.getD (b + k) default) →
      BuildInv len m positions b st →
      createNeighboursAux m3 ((ps.enumFrom b).map (fun ip => (ip.1, findSubcell len m ip.2)))
        st = Except.ok hn →
      BuildInv len m positions (b + ps.length) hn := by
  intro ps
  induction ps with
  | nil =>
    intro b st hn _ hinv hok
    simp only [List.enumFrom, List.map_nil, createNeighboursAux] at hok
    cases hok
    simpa using hinv
  | cons p rest ih =>
    intro b st hn hagree hinv hok
    simp only [List.enumFrom, List.map_cons] at hok
    cases hfs : findSubcell len m p with
    | error e =>
      rw [hfs] at hok
      simp [createNeighboursAux] at hok
    | ok cid =>
      rw [hfs] at hok
      have hp : positions.getD b default = p := by
        have h := hagree 0
        simpa using h.symm
      have hins := @insertParticle_inv len m m3 positions b st cid (by rw [hp]; exact hfs) hinv
      have hrest := ih (b + 1) (insertParticle m3 st b cid) hn
        (fun k => by
          have h := hagree (k + 1)
          simp only [List.getD_cons_succ] at h
          rw [show b + 1 + k = b + (k + 1) by omega]
          exact h)
        hins
        (by simpa [createNeighboursAux] using hok)
      rw [show b + (p :: rest).length = b + 1 + rest.length by simp; omega]
      exact hrest

lemma createNeighbours_inv (L skin : ℚ) (positions : List Vec3) (hn : List ℤ × List ℤ)
    (hok : createNeighbours L skin positions = Except.ok hn) :
    BuildInv (L / (subcellsInRow L skin : ℚ)) (subcellsInRow L skin) positions
      positions.length hn := by
  unfold createNeighbours at hok
  have hinit : BuildInv (L / (subcellsInRow L skin : ℚ)) (subcellsInRow L skin) positions 0
      (List.replicate (subcellsInRow L skin ^ 3) (-1),
        List.replicate positions.length (-1)) := by
    refine ⟨by simp, by simp, ?_, ?_, ?_, ?_, ?_⟩
    · intro k
      rw [getD_replicate_eval]
      split <;> omega
    · intro k
      rw [getD_replicate_eval]
      split <;> omega
    · intro c
      rw [getD_replicate_eval]
      split <;> omega
    · intro c j hj
      rw [getD_replicate_eval] at hj
      split at hj <;> omega
    · intro k j hj
      rw [getD_replicate_eval] at hj
      split at hj <;> omega
  have h := createNeighboursAux_inv (L / (subcellsInRow L skin : ℚ)) (subcellsInRow L skin)
    (subcellsInRow L skin ^ 3) positions positions 0 _ hn (fun k => by simp) hinit
    (by rw [show positions.enum = positions.enumFrom 0 from rfl] at hok; exact hok)
  simpa using h

/-! ### Chain walk lemmas -/

lemma chainWalk_prop (next : List ℤ) (P : ℕ → Prop)
    (hnext : ∀ k j : ℕ, next.getD k (-1) = (j : ℤ) → P k → P j) :
    ∀ (fuel : ℕ) (idx : ℤ), (∀ j : ℕ, idx = (j : ℤ) → P j) →
      ∀ j ∈ chainWalk next fuel idx, P j := by
  intro fuel
  induction fuel with
  | zero =>
    intro idx _ j hj
    simp [chainWalk] at hj
  | succ fuel ih =>
    intro idx hstart j hj
    rw [chainWalk] at hj
    by_cases h0 : 0 ≤ idx
    · rw [if_pos h0] at hj
      rcases List.mem_cons.mp hj with hj | hj
      · subst hj
        exact hstart idx.natAbs (Int.natAbs_of_nonneg h0).symm
      · have hPidx : P idx.natAbs := hstart idx.natAbs (Int.natAbs_of_nonneg h0).symm
        exact ih (next.getD idx.natAbs (-1))
          (fun j' hj' => hnext idx.natAbs j' hj' hPidx) j hj
    · rw [if_neg h0] at hj
      simp at hj

lemma chainWalk_le (next : List ℤ) (hlt : ∀ k : ℕ, next.getD k (-1) < (k : ℤ)) :
    ∀ (fuel : ℕ) (idx : ℤ), ∀ j ∈ chainWalk next fuel idx, (j : ℤ) ≤ idx := by
  intro fuel
  induction fuel with
  | zero =>
    intro idx j hj
    simp [chainWalk] at hj
  | succ fuel ih =>
    intro idx j hj
    rw [chainWalk] at hj
    by_cases h0 : 0 ≤ idx
    · rw [if_pos h0] at hj
      rcases List.mem_cons.mp hj with hj | hj
      · subst hj
        rw [Int.natAbs_of_nonneg h0]
      · have h1 := ih (next.getD idx.natAbs (-1)) j hj
        have h2 := hlt idx.natAbs
        rw [Int.natAbs_of_nonneg h0] at h2
        omega
    · rw [if_neg h0] at hj
      simp at hj

lemma chainWalk_pairwise (next : List ℤ) (hlt : ∀ k : ℕ, next.getD k (-1) < (k : ℤ)) :
    ∀ (fuel : ℕ) (idx : ℤ), List.Pairwise (fun a b => b < a) (chainWalk next fuel idx) := by
  intro fuel
  induction fuel with
  | zero =>
    intro idx
    simp [chainWalk]
  | succ fuel ih =>
    intro idx
    rw [chainWalk]
    by_cases h0 : 0 ≤ idx
    · rw [if_pos h0]
      refine List.Pairwise.cons ?_ (ih _)
      intro y hy
      have h1 := chainWalk_le next hlt fuel (next.getD idx.natAbs (-1)) y hy
      have h2 := hlt idx.natAbs
      omega
    · rw [if_neg h0]
      simp

lemma chainWalk_nodup (next : List ℤ) (hlt : ∀ k : ℕ, next.getD k (-1) < (k : ℤ))
    (fuel : ℕ) (idx : ℤ) : (chainWalk next fuel idx).Nodup :=
  (chainWalk_pairwise next hlt fuel idx).imp (fun h => (Nat.ne_of_lt h).symm)

/-! ### Candidate lists: bounds, cells and distinctness -/

lemma candidatesFor_mem_prop (head next : List ℤ) (stencil : List ℕ) (P : ℕ → Prop)
    (hhead : ∀ c j : ℕ, head.getD c (-1) = (j : ℤ) → P j)
    (hnext : ∀ k j : ℕ, next.getD k (-1) = (j : ℤ) → P k → P j) :
    ∀ j ∈ candidatesFor head next stencil, P j := by
  intro j hj
  unfold candidatesFor at hj
  rcases List.mem_flatMap.mp hj with ⟨c, _, hj⟩
  exact chainWalk_prop next P hnext _ _ (fun j' hj' => hhead c j' hj') j hj

lemma candidatesFor_nodup (head next : List ℤ) (stencil : List ℕ) (cellOf : ℕ → ℕ)
    (hst : stencil.Nodup)
    (hlt : ∀ k : ℕ, next.getD k (-1) < (k : ℤ))
    (hheadc : ∀ c j : ℕ, head.getD c (-1) = (j : ℤ) → cellOf j = c)
    (hnextc : ∀ k j : ℕ, next.getD k (-1) = (j : ℤ) → cellOf j = cellOf k) :
    (candidatesFor head next stencil).Nodup := by
  unfold candidatesFor
  rw [List.nodup_flatMap]
  have hcell : ∀ c : ℕ, ∀ j ∈ chainWalk next next.length (head.getD c (-1)), cellOf j = c := by
    intro c
    exact chainWalk_prop next (fun j => cellOf j = c)
      (fun k j hkj hk => by
        show cellOf j = c
        rw [hnextc k j hkj]
        exact hk) _ _ (fun j hj => hheadc c j hj)
  refine ⟨fun c _ => chainWalk_nodup next hlt _ _, ?_⟩
  refine hst.imp ?_
  intro c1 c2 hne a ha1 ha2
  have h1 := hcell c1 a ha1
  have h2 := hcell c2 a ha2
  exact hne (h1 ▸ h2 ▸ rfl)

/-! ### Geometry of the 27-cell stencil -/

lemma stencilOffset_inj : ∀ k1 < 27, ∀ k2 < 27,
    stencilOffset k1 = stencilOffset k2 → k1 = k2 := by
  decide

lemma stencilCoords_eq (len : ℚ) (hlen : 0 < len) (p : Vec3) (k : ℕ) (hk : k < 27) :
    stencilCoords len p k =
      (⌊p.x / len⌋ + (stencilOffset k).1, ⌊p.y / len⌋ + (stencilOffset k).2.1,
        ⌊p.z / len⌋ + (stencilOffset k).2.2) := by
  have hne : len ≠ 0 := ne_of_gt hlen
  have hsub : ∀ a : ℚ, (a - len) / len = a / len - 1 := by
    intro a
    field_simp
  have hadd : ∀ a : ℚ, (a + len) / len = a / len + 1 := by
    intro a
    field_simp
  have hx1 : ⌊(p.x - len) / len⌋ = ⌊p.x / len⌋ - 1 := by rw [hsub, Int.floor_sub_one]
  have hx2 : ⌊(p.x + len) / len⌋ = ⌊p.x / len⌋ + 1 := by rw [hadd, Int.floor_add_one]
  have hy1 : cellY len 1 p = ⌊p.y / len⌋ - 1 := by
    simp only [cellY, if_neg one_ne_zero, hsub, Int.floor_sub_one]
  have hy2 : cellY len 0 p = ⌊p.y / len⌋ + 1 := by
    simp [cellY, hadd, Int.floor_add_one]
  have hz1 : cellZ len 1 p = ⌊p.z / len⌋ - 1 := by
    simp only [cellZ, if_neg one_ne_zero, hsub, Int.floor_sub_one]
  have hz2 : cellZ len 0 p = ⌊p.z / len⌋ + 1 := by
    simp [cellZ, hadd, Int.floor_add_one]
  interval_cases k <;>
    simp [stencilCoords, stencilOffset, subcellId3d, hx1, hx2, hy1, hy2, hz1, hz2,
      Prod.ext_iff] <;>
    omega

lemma wrapCoord_range (m : ℕ) (hm : 1 ≤ m) (c : ℤ) :
    0 ≤ wrapCoord m c ∧ wrapCoord m c ≤ (m : ℤ) - 1 := by
  simp only [wrapCoord]
  split_ifs <;> omega

lemma wrapCoord_inj_near (m : ℕ) (hm : 3 ≤ m) (b o1 o2 : ℤ)
    (hb0 : 0 ≤ b) (hb1 : b ≤ (m : ℤ) - 1) (h1 : -1 ≤ o1) (h1' : o1 ≤ 1)
    (h2 : -1 ≤ o2) (h2' : o2 ≤ 1)
    (he : wrapCoord m (b + o1) = wrapCoord m (b + o2)) : o1 = o2 := by
  simp only [wrapCoord] at he
  split_ifs at he <;> omega

lemma encodeCell_inj (m : ℕ) (a1 b1 c1 a2 b2 c2 : ℤ)
    (ha1 : 0 ≤ a1) (ha1' : a1 ≤ (m : ℤ) - 1) (hb1 : 0 ≤ b1) (hb1' : b1 ≤ (m : ℤ) - 1)
    (hc1 : 0 ≤ c1) (hc1' : c1 ≤ (m : ℤ) - 1) (ha2 : 0 ≤ a2) (ha2' : a2 ≤ (m : ℤ) - 1)
    (hb2 : 0 ≤ b2) (hb2' : b2 ≤ (m : ℤ) - 1) (hc2 : 0 ≤ c2) (hc2' : c2 ≤ (m : ℤ) - 1)
    (he : a1 + b1 * (m : ℤ) + c1 * (m : ℤ) ^ 2 = a2 + b2 * (m : ℤ) + c2 * (m : ℤ) ^ 2) :
    a1 = a2 ∧ b1 = b2 ∧ c1 = c2 := by
  have hm1 : (1 : ℤ) ≤ (m : ℤ) := by omega
  have hda : a1 - a2 = 0 := by
    refine @Int.eq_zero_of_abs_lt_dvd (m : ℤ) (a1 - a2)
      ⟨(b2 - b1) + (c2 - c1) * (m : ℤ), ?_⟩ ?_
    · linear_combination he
    · rw [abs_lt]
      omega
  have hdb : b1 - b2 = 0 := by
    refine @Int.eq_zero_of_abs_lt_dvd (m : ℤ) (b1 - b2) ⟨c2 - c1, ?_⟩ ?_
    · have h2 : (b1 - b2) * (m : ℤ) = (c2 - c1) * (m : ℤ) ^ 2 := by linear_combination he - hda
      have hm0 : (m : ℤ) ≠ 0 := by omega
      have := mul_right_cancel₀ hm0 (show (b1 - b2) * (m : ℤ) = ((m : ℤ) * (c2 - c1)) * (m : ℤ) by
        rw [h2]; ring)
      linarith [this]
    · rw [abs_lt]
      omega
  have hdc : c1 = c2 := by
    have h3 : (c1 - c2) * (m : ℤ) ^ 2 = 0 := by linear_combination he - hda - (m : ℤ) * hdb
    have hm2 : (m : ℤ) ^ 2 ≠ 0 := pow_ne_zero 2 (by omega)
    have := mul_eq_zero.mp h3
    rcases this with h | h
    · omega
    · exact absurd h hm2
  exact ⟨by omega, by omega, hdc⟩

lemma stencilCellId_inj (len : ℚ) (m : ℕ) (p : Vec3) (hm : 3 ≤ m) (hlen : 0 < len)
    (hbx : 0 ≤ ⌊p.x / len⌋ ∧ ⌊p.x / len⌋ ≤ (m : ℤ) - 1)
    (hby : 0 ≤ ⌊p.y / len⌋ ∧ ⌊p.y / len⌋ ≤ (m : ℤ) - 1)
    (hbz : 0 ≤ ⌊p.z / len⌋ ∧ ⌊p.z / len⌋ ≤ (m : ℤ) - 1) :
    ∀ k1, k1 < 27 → ∀ k2, k2 < 27 →
      stencilCellId len m p k1 = stencilCellId len m p k2 → k1 = k2 := by
  intro k1 hk1 k2 hk2 he
  have hm1 : 1 ≤ m := by omega
  have hoff : ∀ k, k < 27 → -1 ≤ (stencilOffset k).1 ∧ (stencilOffset k).1 ≤ 1 ∧
      -1 ≤ (stencilOffset k).2.1 ∧ (stencilOffset k).2.1 ≤ 1 ∧
      -1 ≤ (stencilOffset k).2.2 ∧ (stencilOffset k).2.2 ≤ 1 := by
    decide
  simp only [stencilCellId, stencilCoords_eq len hlen p k1 hk1,
    stencilCoords_eq len hlen p k2 hk2] at he
  set w1x := wrapCoord m (⌊p.x / len⌋ + (stencilOffset k1).1) with hw1x
  set w1y := wrapCoord m (⌊p.y / len⌋ + (stencilOffset k1).2.1) with hw1y
  set w1z := wrapCoord m (⌊p.z / len⌋ + (stencilOffset k1).2.2) with hw1z
  set w2x := wrapCoord m (⌊p.x / len⌋ + (stencilOffset k2).1) with hw2x
  set w2y := wrapCoord m (⌊p.y / len⌋ + (stencilOffset k2).2.1) with hw2y
  set w2z := wrapCoord m (⌊p.z / len⌋ + (stencilOffset k2).2.2) with hw2z
  have r1x : 0 ≤ w1x ∧ w1x ≤ (m : ℤ) - 1 := wrapCoord_range m hm1 _
  have r1y : 0 ≤ w1y ∧ w1y ≤ (m : ℤ) - 1 := wrapCoord_range m hm1 _
  have r1z : 0 ≤ w1z ∧ w1z ≤ (m : ℤ) - 1 := wrapCoord_range m hm1 _
  have r2x : 0 ≤ w2x ∧ w2x ≤ (m : ℤ) - 1 := wrapCoord_range m hm1 _
  have r2y : 0 ≤ w2y ∧ w2y ≤ (m : ℤ) - 1 := wrapCoord_range m hm1 _
  have r2z : 0 ≤ w2z ∧ w2z ≤ (m : ℤ) - 1 := wrapCoord_range m hm1 _
  have hezz : w1x + w1y * (m : ℤ) + w1z * (m : ℤ) ^ 2 =
      w2x + w2y * (m : ℤ) + w2z * (m : ℤ) ^ 2 := by
    have hm0 : (0 : ℤ) ≤ (m : ℤ) := Int.natCast_nonneg m
    have e1 : 0 ≤ w1x + w1y * (m : ℤ) + w1z * (m : ℤ) ^ 2 := by
      have := r1x.1
      have := r1y.1
      have := r1z.1
      nlinarith
    have e2 : 0 ≤ w2x + w2y * (m : ℤ) + w2z * (m : ℤ) ^ 2 := by
      have := r2x.1
      have := r2y.1
      have := r2z.1
      nlinarith
    omega
  have hinj := encodeCell_inj m w1x w1y w1z w2x w2y w2z r1x.1 r1x.2 r1y.1 r1y.2 r1z.1 r1z.2
    r2x.1 r2x.2 r2y.1 r2y.2 r2z.1 r2z.2 hezz
  have ho1 := hoff k1 hk1
  have ho2 := hoff k2 hk2
  have hx := wrapCoord_inj_near m hm ⌊p.x / len⌋ (stencilOffset k1).1 (stencilOffset k2).1
    hbx.1 hbx.2 ho1.1 ho1.2.1 ho2.1 ho2.2.1 (by rw [hw1x, hw2x] at hinj; exact hinj.1)
  have hy := wrapCoord_inj_near m hm ⌊p.y / len⌋ (stencilOffset k1).2.1 (stencilOffset k2).2.1
    hby.1 hby.2 ho1.2.2.1 ho1.2.2.2.1 ho2.2.2.1 ho2.2.2.2.1
    (by rw [hw1y, hw2y] at hinj; exact hinj.2.1)
  have hz := wrapCoord_inj_near m hm ⌊p.z / len⌋ (stencilOffset k1).2.2 (stencilOffset k2).2.2
    hbz.1 hbz.2 ho1.2.2.2.2.1 ho1.2.2.2.2.2 ho2.2.2.2.2.1 ho2.2.2.2.2.2
    (by rw [hw1z, hw2z] at hinj; exact hinj.2.2)
  refine stencilOffset_inj k1 hk1 k2 hk2 ?_
  exact Prod.ext hx (Prod.ext hy hz)

lemma neighbourSubcells_nodup (len : ℚ) (m : ℕ) (p : Vec3) (hm : 3 ≤ m) (hlen : 0 < len)
    (hbx : 0 ≤ ⌊p.x / len⌋ ∧ ⌊p.x / len⌋ ≤ (m : ℤ) - 1)
    (hby : 0 ≤ ⌊p.y / len⌋ ∧ ⌊p.y / len⌋ ≤ (m : ℤ) - 1)
    (hbz : 0 ≤ ⌊p.z / len⌋ ∧ ⌊p.z / len⌋ ≤ (m : ℤ) - 1) :
    (neighbourSubcells len m p).Nodup := by
  unfold neighbourSubcells
  refine List.Nodup.map_on ?_ (List.nodup_range 27)
  intro k1 hk1 k2 hk2 he
  exact stencilCellId_inj len m p hm hlen hbx hby hbz k1 (List.mem_range.mp hk1)
    k2 (List.mem_range.mp hk2) he

lemma floor_base_range (L len x : ℚ) (m : ℕ) (hm : 1 ≤ m) (hlen : len = L / (m : ℚ))
    (h0 : 0 ≤ x) (h1 : x < L) : 0 ≤ ⌊x / len⌋ ∧ ⌊x / len⌋ ≤ (m : ℤ) - 1 := by
  have hL : 0 < L := lt_of_le_of_lt h0 h1
  have hmq : (0 : ℚ) < (m : ℚ) := by
    exact_mod_cast Nat.lt_of_lt_of_le Nat.zero_lt_one hm
  have hlenpos : 0 < len := by
    rw [hlen]
    positivity
  have hml : (m : ℚ) * len = L := by
    rw [hlen]
    field_simp
  constructor
  · exact Int.floor_nonneg.mpr (div_nonneg h0 hlenpos.le)
  · have hq : x / len < ((m : ℤ) : ℚ) := by
      rw [div_lt_iff₀ hlenpos]
      push_cast
      rw [hml]
      exact h1
    have := Int.floor_lt.mpr hq
    omega

/-! ### The neighbour frame: lengths and closed form -/

lemma frameAddSym_length (i : ℕ) (rows : List (List (ℕ × ℚ))) (e : ℕ × ℚ) :
    (frameAddSym i rows e).length = rows.length := by
  simp [frameAddSym]

lemma frameAddSym_foldl_length (i : ℕ) (es : List (ℕ × ℚ)) (rows : List (List (ℕ × ℚ))) :
    (es.foldl (frameAddSym i) rows).length = rows.length := by
  induction es generalizing rows with
  | nil => rfl
  | cons e tl ih => rw [List.foldl_cons, ih, frameAddSym_length]

lemma frameStep_length (pairsOf : ℕ → List (ℕ × ℚ)) (rows : List (List (ℕ × ℚ))) (i : ℕ) :
    (frameStep pairsOf rows i).length = rows.length := by
  unfold frameStep
  rw [frameAddSym_foldl_length, List.length_set]

lemma frameStep_foldl_length (pairsOf : ℕ → List (ℕ × ℚ)) :
    ∀ (l : List ℕ) (rows : List (List (ℕ × ℚ))),
      (l.foldl (frameStep pairsOf) rows).length = rows.length := by
  intro l
  induction l with
  | nil => intro rows; rfl
  | cons x tl ih =>
    intro rows
    rw [List.foldl_cons, ih, frameStep_length]

lemma frameAddSym_foldl_getD (i a : ℕ) :
    ∀ (es : List (ℕ × ℚ)) (rows : List (List (ℕ × ℚ))),
      (∀ e ∈ es, e.1 < rows.length) → a < rows.length →
      (es.foldl (frameAddSym i) rows).getD a [] =
        rows.getD a [] ++ (es.filter (fun e => e.1 = a)).map (fun e => (i, e.2)) := by
  intro es
  induction es with
  | nil =>
    intro rows _ _
    simp
  | cons e tl ih =>
    intro rows hes ha
    rw [List.foldl_cons]
    have h1 : ∀ x ∈ tl, x.1 < (frameAddSym i rows e).length := by
      intro x hx
      rw [frameAddSym_length]
      exact hes x (List.mem_cons_of_mem _ hx)
    rw [ih _ h1 (by rw [frameAddSym_length]; exact ha)]
    by_cases hea : e.1 = a
    · rw [List.filter_cons_of_pos (by simp [hea]), List.map_cons]
      have h2 : (frameAddSym i rows e).getD a [] = rows.getD a [] ++ [(i, e.2)] := by
        unfold frameAddSym
        rw [getD_set_eval, if_pos ⟨hea, hes e (List.mem_cons_self e tl)⟩, hea]
      rw [h2, List.append_assoc, List.singleton_append]
    · rw [List.filter_cons_of_neg (by simp [hea])]
      have h2 : (frameAddSym i rows e).getD a [] = rows.getD a [] := by
        unfold frameAddSym
        rw [getD_set_eval, if_neg (fun hc => hea hc.1)]
      rw [h2]

lemma neighboursForOne_mem (L len cutoff : ℚ) (m : ℕ) (positions : List Vec3)
    (head next : List ℤ) (i : ℕ) :
    ∀ e ∈ neighboursForOne L len cutoff m positions head next i,
      i < e.1 ∧ 0 < e.2 ∧ e.2 ≤ cutoff ^ 2 ∧
        e.1 ∈ candidatesFor head next (neighbourSubcells len m (positions.getD i default)) := by
  intro e he
  unfold neighboursForOne at he
  rcases List.mem_filterMap.mp he with ⟨j, hj, hkeep⟩
  simp only [keepPair] at hkeep
  split_ifs at hkeep with h1 h2
  · cases hkeep
    exact ⟨h1, h2.1, h2.2, hj⟩

lemma frameFold_getD (pairsOf : ℕ → List (ℕ × ℚ)) (N : ℕ)
    (Hp : ∀ i, ∀ e ∈ pairsOf i, i < e.1 ∧ e.1 < N) :
    ∀ n, n ≤ N → ∀ a, a < N →
      ((List.range n).foldl (frameStep pairsOf) (List.replicate N [])).getD a [] =
        mirroredEntries pairsOf (min n a) a ++ (if a < n then pairsOf a else []) := by
  intro n
  induction n with
  | zero =>
    intro _ a ha
    simp [mirroredEntries, getD_replicate_eval, ha]
  | succ n ih =>
    intro hn a ha
    have hnN : n ≤ N := Nat.le_of_succ_le hn
    rw [List.range_succ, List.foldl_append, List.foldl_cons, List.foldl_nil]
    have hlen : ((List.range n).foldl (frameStep pairsOf) (List.replicate N [])).length = N := by
      rw [frameStep_foldl_length]
      simp
    set rows := (List.range n).foldl (frameStep pairsOf) (List.replicate N []) with hrows
    unfold frameStep
    have hes : ∀ e ∈ pairsOf n, e.1 < (rows.set n (rows.getD n [] ++ pairsOf n)).length := by
      intro e he'
      rw [List.length_set, hlen]
      exact (Hp n e he').2
    rw [frameAddSym_foldl_getD n a _ _ hes (by rw [List.length_set, hlen]; exact ha)]
    rw [getD_set_eval]
    have hfilter_gt : ∀ b : ℕ, b ≤ n →
        (pairsOf n).filter (fun e => e.1 = b) = [] := by
      intro b hb
      rw [List.filter_eq_nil_iff]
      intro e he'
      have := (Hp n e he').1
      simp
      omega
    by_cases han : n = a
    · subst han
      rw [if_pos ⟨rfl, by rw [hlen]; omega⟩]
      rw [ih hnN n ha, hfilter_gt n le_rfl]
      simp [Nat.min_self, Nat.lt_irrefl]
    · rw [if_neg (fun hc => han hc.1)]
      rcases Nat.lt_or_ge a n with hlt | hge
      · rw [ih hnN a ha, hfilter_gt a (le_of_lt hlt)]
        rw [Nat.min_eq_right (by omega), Nat.min_eq_right (by omega)]
        rw [if_pos hlt, if_pos (by omega)]
        simp
      · have hgt : n < a := by omega
        rw [ih hnN a ha]
        rw [Nat.min_eq_left (by omega), Nat.min_eq_left (by omega)]
        rw [if_neg (by omega), if_neg (by omega)]
        rw [List.append_nil]
        unfold mirroredEntries
        rw [List.range_succ, List.flatMap_append]
        simp

lemma createNeighboursFrame_length (L len cutoff : ℚ) (m : ℕ) (positions : List Vec3)
    (head next : List ℤ) :
    (createNeighboursFrame L len cutoff m positions head next).length = positions.length := by
  unfold createNeighboursFrame
  rw [frameStep_foldl_length]
  simp

lemma createNeighboursFrame_getD (L len cutoff : ℚ) (m : ℕ) (positions : List Vec3)
    (head next : List ℤ)
    (Hp : ∀ i, ∀ e ∈ neighboursForOne L len cutoff m positions head next i,
      i < e.1 ∧ e.1 < positions.length)
    (a : ℕ) (ha : a < positions.length) :
    (createNeighboursFrame L len cutoff m positions head next).getD a [] =
      mirroredEntries (neighboursForOne L len cutoff m positions head next) a a ++
        neighboursForOne L len cutoff m positions head next a := by
  unfold createNeighboursFrame
  rw [frameFold_getD _ positions.length Hp positions.length le_rfl a ha]
  rw [Nat.min_eq_right (le_of_lt ha), if_pos ha]

lemma createNeighboursFrame_getD_ge (L len cutoff : ℚ) (m : ℕ) (positions : List Vec3)
    (head next : List ℤ) (a : ℕ) (ha : positions.length ≤ a) :
    (createNeighboursFrame L len cutoff m positions head next).getD a [] = [] := by
  rw [List.getD_eq_getElem?_getD, List.getElem?_eq_none]
  · rfl
  · rw [createNeighboursFrame_length]
    exact ha

lemma mirroredEntries_mem (pairsOf : ℕ → List (ℕ × ℚ)) (n a b : ℕ) (d : ℚ) :
    (b, d) ∈ mirroredEntries pairsOf n a ↔ b < n ∧ (a, d) ∈ pairsOf b := by
  unfold mirroredEntries
  rw [List.mem_flatMap]
  constructor
  · rintro ⟨i, hi, hmem⟩
    rcases List.mem_map.mp hmem with ⟨e, hef, heq⟩
    rcases List.mem_filter.mp hef with ⟨hep, hfa⟩
    have hea : e.1 = a := by simpa using hfa
    have hib : i = b := congrArg Prod.fst heq
    have hed : e.2 = d := congrArg Prod.snd heq
    subst hib
    refine ⟨List.mem_range.mp hi, ?_⟩
    have he2 : e = (a, d) := Prod.ext hea hed
    rw [← he2]
    exact hep
  · rintro ⟨hb, hmem⟩
    exact ⟨b, List.mem_range.mpr hb,
      List.mem_map.mpr ⟨(a, d), List.mem_filter.mpr ⟨hmem, by simp⟩, rfl⟩⟩

lemma frame_mem_iff (L len cutoff : ℚ) (m : ℕ) (positions : List Vec3) (head next : List ℤ)
    (Hp : ∀ i, ∀ e ∈ neighboursForOne L len cutoff m positions head next i,
      i < e.1 ∧ e.1 < positions.length)
    (a : ℕ) (ha : a < positions.length) (b : ℕ) (d : ℚ) :
    (b, d) ∈ (createNeighboursFrame L len cutoff m positions head next).getD a [] ↔
      (b < a ∧ (a, d) ∈ neighboursForOne L len cutoff m positions head next b) ∨
        (a < b ∧ (b, d) ∈ neighboursForOne L len cutoff m positions head next a) := by
  rw [createNeighboursFrame_getD L len cutoff m positions head next Hp a ha, List.mem_append,
    mirroredEntries_mem]
  constructor
  · rintro (⟨hb, hm⟩ | hm)
    · exact Or.inl ⟨hb, hm⟩
    · exact Or.inr ⟨(Hp a (b, d) hm).1, hm⟩
  · rintro (⟨hb, hm⟩ | ⟨_, hm⟩)
    · exact Or.inl ⟨hb, hm⟩
    · exact Or.inr hm

lemma neighboursForOne_mem_of_ok (L skin cutoff : ℚ) (positions : List Vec3)
    (hd nx : List ℤ) (hok : createNeighbours L skin positions = Except.ok (hd, nx)) :
    ∀ i, ∀ e ∈ neighboursForOne L (L / (subcellsInRow L skin : ℚ)) cutoff
        (subcellsInRow L skin) positions hd nx i,
      i < e.1 ∧ e.1 < positions.length := by
  have hinv := createNeighbours_inv L skin positions (hd, nx) hok
  intro i e he
  have h1 := neighboursForOne_mem L (L / (subcellsInRow L skin : ℚ)) cutoff
    (subcellsInRow L skin) positions hd nx i e he
  refine ⟨h1.1, ?_⟩
  have hN : ∀ j ∈ candidatesFor hd nx
      (neighbourSubcells (L / (subcellsInRow L skin : ℚ)) (subcellsInRow L skin)
        (positions.getD i default)), j < positions.length := by
    apply candidatesFor_mem_prop hd nx _ (fun j => j < positions.length)
    · intro c j hj
      have h2 := hinv.headLtB c
      rw [hj] at h2
      exact_mod_cast h2
    · intro k j hj _
      have h2 := hinv.nextLtB k
      rw [hj] at h2
      exact_mod_cast h2
  exact hN e.1 h1.2.2.2

/-! ### Multiplicity of neighbour ids in frame rows -/

lemma filter_fst_length (es : List (ℕ × ℚ)) (a : ℕ) :
    (es.filter (fun e => e.1 = a)).length = List.count a (es.map Prod.fst) := by
  induction es with
  | nil => rfl
  | cons e tl ih =>
    by_cases h : e.1 = a
    · rw [List.filter_cons_of_pos (by simp [h]), List.map_cons]
      rw [List.count_cons]
      simp [h, ih]
    · rw [List.filter_cons_of_neg (by simp [h]), List.map_cons, List.count_cons]
      simp [h, ih]

lemma count_map_const (l : List (ℕ × ℚ)) (n b : ℕ) :
    List.count b (l.map (fun _ => n)) = if n = b then l.length else 0 := by
  induction l with
  | nil => simp
  | cons e tl ih =>
    rw [List.map_cons, List.count_cons, ih]
    by_cases h : n = b <;> simp [h]

lemma mirroredEntries_count (pairsOf : ℕ → List (ℕ × ℚ)) (a b : ℕ) :
    ∀ n : ℕ, List.count b ((mirroredEntries pairsOf n a).map Prod.fst) =
      if b < n then List.count a ((pairsOf b).map Prod.fst) else 0 := by
  intro n
  induction n with
  | zero => simp [mirroredEntries]
  | succ n ih =>
    unfold mirroredEntries
    rw [List.range_succ, List.flatMap_append]
    unfold mirroredEntries at ih
    rw [List.map_append, List.count_append, ih]
    have hblock : List.count b
        ((((pairsOf n).filter (fun e => e.1 = a)).map (fun e => (n, e.2))).map Prod.fst) =
        if n = b then List.count a ((pairsOf n).map Prod.fst) else 0 := by
      have hmap : (((pairsOf n).filter (fun e => e.1 = a)).map
          (fun e => (n, e.2))).map Prod.fst =
          ((pairsOf n).filter (fun e => e.1 = a)).map (fun _ => n) := by
        rw [List.map_map]
        rfl
      rw [hmap, count_map_const, filter_fst_length]
    simp only [List.flatMap_cons, List.flatMap_nil, List.append_nil, List.map_append,
      List.count_append] -- handles flatMap [n]
    rw [hblock]
    by_cases h1 : b < n
    · have h2 : ¬ n = b := by omega
      have h3 : b < n + 1 := by omega
      simp [h1, h2, h3]
    · by_cases h2 : b = n
      · subst h2
        simp [h1, Nat.lt_succ_self]
      · have h3 : ¬ b < n + 1 := by omega
        have h4 : ¬ n = b := by omega
        simp [h1, h2, h3, h4]

lemma count_fst_zero_of_le (L len cutoff : ℚ) (m : ℕ) (positions : List Vec3)
    (head next : List ℤ) (a b : ℕ) (hba : b ≤ a) :
    List.count b ((neighboursForOne L len cutoff m positions head next a).map Prod.fst) = 0 := by
  rw [List.count_eq_zero]
  intro hmem
  rcases List.mem_map.mp hmem with ⟨e, he, hfe⟩
  have := (neighboursForOne_mem L len cutoff m positions head next a e he).1
  omega

lemma frame_count_ids (L len cutoff : ℚ) (m : ℕ) (positions : List Vec3)
    (head next : List ℤ)
    (Hp : ∀ i, ∀ e ∈ neighboursForOne L len cutoff m positions head next i,
      i < e.1 ∧ e.1 < positions.length)
    (a : ℕ) (ha : a < positions.length) (b : ℕ) :
    List.count b
        (((createNeighboursFrame L len cutoff m positions head next).getD a []).map Prod.fst) =
      if b < a then
        List.count a ((neighboursForOne L len cutoff m positions head next b).map Prod.fst)
      else if a < b then
        List.count b ((neighboursForOne L len cutoff m positions head next a).map Prod.fst)
      else 0 := by
  rw [createNeighboursFrame_getD L len cutoff m positions head next Hp a ha,
    List.map_append, List.count_append, mirroredEntries_count]
  rcases Nat.lt_trichotomy b a with h | h | h
  · rw [count_fst_zero_of_le L len cutoff m positions head next a b (le_of_lt h)]
    simp [h]
  · subst h
    rw [count_fst_zero_of_le L len cutoff m positions head next b b le_rfl]
    simp [Nat.lt_irrefl]
  · have h1 : ¬ b < a := by omega
    simp [h1, h]

lemma filterMap_keepPair_fst_sublist (L len cutoff : ℚ) (positions : List Vec3) (i : ℕ) :
    ∀ l : List ℕ,
      ((l.filterMap (keepPair L len cutoff positions i)).map Prod.fst).Sublist l := by
  intro l
  induction l with
  | nil => simp
  | cons j tl ih =>
    rw [List.filterMap_cons]
    cases hk : keepPair L len cutoff positions i j with
    | none => exact ih.cons j
    | some e =>
      rw [List.map_cons]
      have hej : e.1 = j := by
        simp only [keepPair] at hk
        split_ifs at hk
        · exact congrArg Prod.fst (Option.some.inj hk).symm
      rw [hej]
      exact ih.cons₂ j

lemma neighboursForOne_fst_nodup (L skin cutoff : ℚ) (positions : List Vec3)
    (hd nx : List ℤ) (hok : createNeighbours L skin positions = Except.ok (hd, nx))
    (hL : 0 < L) (hbox : ∀ p ∈ positions, inBox L p) (hm : 3 ≤ subcellsInRow L skin)
    (i : ℕ) (hi : i < positions.length) :
    ((neighboursForOne L (L / (subcellsInRow L skin : ℚ)) cutoff (subcellsInRow L skin)
      positions hd nx i).map Prod.fst).Nodup := by
  have hinv := createNeighbours_inv L skin positions (hd, nx) hok
  have hm1 : 1 ≤ subcellsInRow L skin := by omega
  have hmq : (0 : ℚ) < (subcellsInRow L skin : ℚ) := by exact_mod_cast hm1
  have hlenpos : 0 < L / (subcellsInRow L skin : ℚ) := div_pos hL hmq
  have hpi : inBox L (positions.getD i default) := by
    apply hbox
    rw [List.getD_eq_getElem?_getD, List.getElem?_eq_getElem hi]
    exact List.getElem_mem hi
  obtain ⟨hx0, hx1, hy0, hy1, hz0, hz1⟩ := hpi
  have hbx := floor_base_range L (L / (subcellsInRow L skin : ℚ)) (positions.getD i default).x
    (subcellsInRow L skin) hm1 rfl hx0 hx1
  have hby := floor_base_range L (L / (subcellsInRow L skin : ℚ)) (positions.getD i default).y
    (subcellsInRow L skin) hm1 rfl hy0 hy1
  have hbz := floor_base_range L (L / (subcellsInRow L skin : ℚ)) (positions.getD i default).z
    (subcellsInRow L skin) hm1 rfl hz0 hz1
  have hstnodup := neighbourSubcells_nodup (L / (subcellsInRow L skin : ℚ))
    (subcellsInRow L skin) (positions.getD i default) hm hlenpos hbx hby hbz
  have hcnodup := candidatesFor_nodup hd nx
    (neighbourSubcells (L / (subcellsInRow L skin : ℚ)) (subcellsInRow L skin)
      (positions.getD i default))
    (fun j => cellVal (L / (subcellsInRow L skin : ℚ)) (subcellsInRow L skin)
      (positions.getD j default))
    hstnodup hinv.nextLt hinv.headCell hinv.nextCell
  unfold neighboursForOne
  exact hcnodup.sublist
    (filterMap_keepPair_fst_sublist L (L / (subcellsInRow L skin : ℚ)) cutoff positions i _)

/-! ### Claim theorems: scheduler, error handling, concrete examples -/

/-- Claim C3: the spec requires the rebuild decision to compute, for every
particle, the Euclidean norm of its positional delta, and to trigger exactly
when the maximum such displacement exceeds `skinRadius - cutoffRadius`.  The
code instead computes `np.sqrt(positions_old**2 - positions_current**2)`
elementwise.  At the failing input — one particle moved from `(4,0,0)` to
`(5,0,0)` with margin `0` — the required decision is a rebuild (displacement
`1 > 0`), but the code's expression is `sqrt(16 - 25) = NaN`, whose comparison
with the margin is false, so the code does not rebuild. -/
theorem claim_C3_rebuild_test_wrong_displacement :
    specShouldRebuild [⟨4, 0, 0⟩] [⟨5, 0, 0⟩] 0 = true ∧
      codeShouldRebuild [⟨4, 0, 0⟩] [⟨5, 0, 0⟩] 0 = false := by
  constructor
  · norm_num [specShouldRebuild, sqrtGtB]
  · norm_num [codeShouldRebuild, movementSqEntries, sqrtGtB]

/-- Claim C5: the spec requires the linked-cell build to raise a bounds error
when a particle maps to an out-of-range subcell, and never to drop a particle
silently.  With box length 10 and skin 3 (grid `m = 4`, subcell length `5/2`),
a particle at `(0,0,10)` maps to subcell id `4·16 = 64 ≥ m³`; the code's
`except IndexError: pass` silently skips it, and the build succeeds with the
particle in no chain: the head array is still all `-1` (every subcell chain is
empty) and `next` is `[-1]`. -/
theorem claim_C5_out_of_range_particle_silently_dropped :
    createNeighbours 10 3 [⟨0, 0, 10⟩] = Except.ok (List.replicate 64 (-1), [-1]) ∧
      ∀ c : ℕ, chainWalk [-1] 1 ((List.replicate 64 (-1) : List ℤ).getD c (-1)) = [] := by
  constructor
  · simp only [createNeighbours]
    rw [subcellsInRow_10_3]
    norm_num [createNeighboursAux, findSubcell, insertParticle, List.enum, List.enumFrom]
  · intro c
    rcases lt_or_ge c 64 with h | h
    · rw [List.getD_eq_getElem?_getD, List.getElem?_replicate_of_lt (by simpa using h)]
      simp [chainWalk]
    · rw [List.getD_eq_getElem?_getD, List.getElem?_replicate]
      rw [if_neg (by simp; omega)]
      simp [chainWalk]

/-- Claim C6: the spec requires construction to raise a `ConfigurationError`
whenever `skinRadius ≤ cutoffRadius`, so that no instance exists with a
non-positive skin margin.  The code performs no such check: with `sigma = 1`
and characteristic length 10, `SystemInfo` succeeds with `cutoff = 3` and box
length 12, the skin radius is `worse_sigma() * 3 = 3 ≤ cutoff`, and
`Neighbours.__init__` still succeeds. -/
theorem claim_C6_construction_accepts_nonpositive_skin_margin :
    systemInfoInit 10 1 = Except.ok (12, 3) ∧ worseSigma 1 * 3 ≤ 3 ∧
      (neighboursInit 12 3 1 [⟨0, 0, 0⟩]).toOption.isSome = true := by
  refine ⟨?_, by norm_num [worseSigma], ?_⟩
  · have hc : ⌈(10 : ℚ) / 3⌉ = 4 := by
      rw [Int.ceil_eq_iff]
      norm_num
    norm_num [systemInfoInit, hc]
  · simp only [neighboursInit, createNeighbours, worseSigma, Except.toOption]
    norm_num [subcellsInRow_12_3]
    norm_num [createNeighboursAux, findSubcell, insertParticle, List.enum, List.enumFrom,
      createNeighboursFrame, frameStep, frameAddSym, neighboursForOne, candidatesFor,
      neighbourSubcells, stencilCellId, stencilCoords, subcellId3d, cellY, cellZ, wrapCoord,
      chainWalk, keepPair, distanceSq, axisDistance, List.range_succ,
      List.getElem_set, List.getElem?_set, List.getElem_replicate, List.getElem?_replicate,
      List.filterMap_cons, List.filterMap_nil, List.foldl_cons, List.foldl_nil]

/-- Claim C7: the spec requires the subcell-grid computation to return the
smallest `subcellsPerRow` with `boxLength / subcellsPerRow ≤ skinRadius` and to
raise a `ConfigurationError` whenever that value is below 3.  The first part
holds of the loop, but no rejection exists: with box length 6 and skin radius 3
the loop returns `subcellsPerRow = 2 < 3`, and the full constructor still
succeeds with that degenerate grid. -/
theorem claim_C7_degenerate_grid_silently_accepted :
    subcellsInRow 6 3 = 2 ∧ (neighboursInit 6 3 1 [⟨0, 0, 0⟩]).toOption.isSome = true := by
  refine ⟨subcellsInRow_6_3, ?_⟩
  simp only [neighboursInit, createNeighbours, worseSigma, Except.toOption]
  norm_num [subcellsInRow_6_3]
  norm_num [createNeighboursAux, findSubcell, insertParticle, List.enum, List.enumFrom,
    createNeighboursFrame, frameStep, frameAddSym, neighboursForOne, candidatesFor,
    neighbourSubcells, stencilCellId, stencilCoords, subcellId3d, cellY, cellZ, wrapCoord,
    chainWalk, keepPair, distanceSq, axisDistance, List.range_succ,
    List.getElem_set, List.getElem?_set, List.getElem_replicate, List.getElem?_replicate,
    List.filterMap_cons, List.filterMap_nil, List.foldl_cons, List.foldl_nil]

/-- Claim C8: with box length 10, cutoff 3 and particles at `(0,0,0)` and
`(9,0,0)`, after the rebuild performed at construction the two particles are
mutual neighbours and the stored distance is exactly `1.0` on both sides
(stored here in squared form: `1 = 1²`). -/
theorem claim_C8_periodic_wrap_example :
    (neighboursInit 10 3 1 [⟨0, 0, 0⟩, ⟨9, 0, 0⟩]).toOption.map
        (fun st => (st.frame.getD 0 [], st.frame.getD 1 [])) =
      some ([(1, 1)], [(0, 1)]) := by
  simp only [neighboursInit, createNeighbours, worseSigma, Except.toOption]
  norm_num [subcellsInRow_10_3]
  norm_num [createNeighboursAux, findSubcell, insertParticle, List.enum, List.enumFrom,
    createNeighboursFrame, frameStep, frameAddSym, neighboursForOne, candidatesFor,
    neighbourSubcells, stencilCellId, stencilCoords, subcellId3d, cellY, cellZ, wrapCoord,
    chainWalk, keepPair, distanceSq, axisDistance, List.range_succ,
    List.getElem_set, List.getElem?_set, List.getElem_replicate, List.getElem?_replicate,
    List.filterMap_cons, List.filterMap_nil, List.foldl_cons, List.foldl_nil]

/-- Claim C9: the spec requires the step counter to increase by exactly one per
call to `update_neighbours`, regardless of rebuild outcome.  The code's trailing
statement is `self._update_count = + 1` (assignment of the constant `+1`, not
`+= 1`): starting from the freshly constructed state (counter 0), the first
call sets the counter to 1 and the second call leaves it at 1 instead of
increasing it to 2. -/
theorem claim_C9_step_counter_set_to_one :
    ((neighboursInit 10 3 1 [⟨0, 0, 0⟩]).bind (fun s0 =>
      (updateNeighbours 10 3 3 4 (5 / 2) [⟨0, 0, 0⟩] [[⟨0, 0, 0⟩]] s0).bind (fun s1 =>
        (updateNeighbours 10 3 3 4 (5 / 2) [⟨0, 0, 0⟩] [[⟨0, 0, 0⟩]] s1).map (fun s2 =>
          (s0.updateCount, s1.updateCount, s2.updateCount))))) = Except.ok (0, 1, 1) := by
  simp only [neighboursInit, createNeighbours, worseSigma]
  norm_num [subcellsInRow_10_3]
  norm_num [updateNeighbours, codeShouldRebuild, movementSqEntries, sqrtGtB, Except.bind,
    Except.map, createNeighboursAux, findSubcell, insertParticle, List.enum, List.enumFrom,
    createNeighboursFrame, frameStep, frameAddSym, neighboursForOne, candidatesFor,
    neighbourSubcells, stencilCellId, stencilCoords, subcellId3d, cellY, cellZ, wrapCoord,
    chainWalk, keepPair, distanceSq, axisDistance, List.range_succ,
    List.getElem_set, List.getElem?_set, List.getElem_replicate, List.getElem?_replicate,
    List.filterMap_cons, List.filterMap_nil, List.foldl_cons, List.foldl_nil]

/-- Claim C4 (amended): on the path where the code's displacement test is not
triggered, `update_neighbours` leaves the linked-cell index unchanged, and the
frame it unconditionally recomputes comes from the construction-time state
(`self.SystemState`), so a cache that was last computed from that same data is
unchanged; only the step counter is written (set to 1).  The original claim is
refuted separately: a movement within the skin margin can still trigger the
rebuild path, because the test computes `sqrt(old² - cur²)` instead of the
displacement norm. -/
theorem claim_C4_amended_no_rebuild_path_keeps_cache (L skin cutoff len : ℚ) (m : ℕ)
    (cpos : List Vec3) (states : List (List Vec3)) (s : NState)
    (hcond : codeShouldRebuild (states.getD s.lastUpdate []) (states.getLastD [])
      (skin - cutoff) = false)
    (hframe : s.frame = createNeighboursFrame L len cutoff m cpos s.startIndex s.neighbourList) :
    updateNeighbours L skin cutoff m len cpos states s = Except.ok { s with updateCount := 1 } := by
  unfold updateNeighbours
  simp only [hcond, ← hframe, Bool.false_eq_true, if_false]

/-- Witness for the amended claim C4 at a concrete configuration: box 10,
skin = cutoff = 3, one particle at the origin that has not moved; the call
succeeds and changes nothing but the counter. -/
theorem claim_C4_amended_witness :
    updateNeighbours 10 3 3 4 (5 / 2) [⟨0, 0, 0⟩] [[⟨0, 0, 0⟩]]
        ⟨(List.replicate 64 (-1)).set 0 0, [-1], [[]], 0, 0⟩ =
      Except.ok ⟨(List.replicate 64 (-1)).set 0 0, [-1], [[]], 0, 1⟩ := by
  have h := claim_C4_amended_no_rebuild_path_keeps_cache 10 3 3 (5 / 2) 4 [⟨0, 0, 0⟩]
    [[⟨0, 0, 0⟩]] ⟨(List.replicate 64 (-1)).set 0 0, [-1], [[]], 0, 0⟩
    (by norm_num [codeShouldRebuild, movementSqEntries, sqrtGtB])
    (by norm_num [createNeighboursFrame, frameStep, frameAddSym, neighboursForOne,
      candidatesFor, neighbourSubcells, stencilCellId, stencilCoords, subcellId3d, cellY,
      cellZ, wrapCoord, chainWalk, keepPair, distanceSq, axisDistance, List.range_succ,
      List.getElem_set, List.getElem?_set, List.getElem_replicate, List.getElem?_replicate,
      List.filterMap_cons, List.filterMap_nil, List.foldl_cons, List.foldl_nil])
  exact h

/-- Counterexample to claim C4 as stated: with skin 4 and cutoff 3 the margin
is 1; one particle moves from `(5,0,0)` to `(9/2,0,0)`, a displacement of
`1/2 ≤ 1` (the spec-modelled test confirms no particle moved more than the
margin), yet the next call to `update_neighbours` enters the rebuild path —
the code's test `sqrt(25 - 81/4) = sqrt(19/4) > 1` fires — so the call does
not leave the cache untouched (it attempts a rebuild and raises). -/
theorem claim_C4_counterexample :
    specShouldRebuild [⟨5, 0, 0⟩] [⟨9 / 2, 0, 0⟩] 1 = false ∧
      codeShouldRebuild [⟨5, 0, 0⟩] [⟨9 / 2, 0, 0⟩] 1 = true ∧
      updateNeighbours 10 4 3 3 (10 / 3) [⟨5, 0, 0⟩] [[⟨5, 0, 0⟩], [⟨9 / 2, 0, 0⟩]]
          ⟨(List.replicate 27 (-1)).set 1 0, [-1], [[]], 0, 0⟩ =
        Except.error "AttributeError: Neighbours object has no attribute _create_neigbours" := by
  refine ⟨?_, ?_, ?_⟩
  · norm_num [specShouldRebuild, sqrtGtB]
  · norm_num [codeShouldRebuild, movementSqEntries, sqrtGtB]
  · norm_num [updateNeighbours, codeShouldRebuild, movementSqEntries, sqrtGtB]

/-- Claim C2: after every cache rebuild (a successful linked-cell build followed
by `_create_neighbours_frame`), the adjacency structure is symmetric: `(b, d)`
is an entry of row `a` exactly when `(a, d)` is an entry of row `b` — the same
stored value `d` on both sides, because the `(j, d)` of `pairs(i)` is copied to
row `j` rather than recomputed (in this exact-arithmetic embedding, value
equality of the copied entry). -/
theorem claim_C2_frame_symmetric (L skin cutoff : ℚ) (positions : List Vec3)
    (hd nx : List ℤ)
    (hok : createNeighbours L skin positions = Except.ok (hd, nx)) :
    ∀ a b : ℕ, ∀ d : ℚ,
      ((b, d) ∈ (createNeighboursFrame L (L / (subcellsInRow L skin : ℚ)) cutoff
          (subcellsInRow L skin) positions hd nx).getD a [] ↔
        (a, d) ∈ (createNeighboursFrame L (L / (subcellsInRow L skin : ℚ)) cutoff
          (subcellsInRow L skin) positions hd nx).getD b []) := by
  intro a b d
  have Hp := neighboursForOne_mem_of_ok L skin cutoff positions hd nx hok
  by_cases ha : a < positions.length
  · by_cases hb : b < positions.length
    · rw [frame_mem_iff L (L / (subcellsInRow L skin : ℚ)) cutoff (subcellsInRow L skin)
        positions hd nx Hp a ha b d,
        frame_mem_iff L (L / (subcellsInRow L skin : ℚ)) cutoff (subcellsInRow L skin)
        positions hd nx Hp b hb a d]
      tauto
    · rw [createNeighboursFrame_getD_ge L (L / (subcellsInRow L skin : ℚ)) cutoff
        (subcellsInRow L skin) positions hd nx b (le_of_not_lt hb)]
      simp only [List.not_mem_nil, iff_false]
      rw [frame_mem_iff L (L / (subcellsInRow L skin : ℚ)) cutoff (subcellsInRow L skin)
        positions hd nx Hp a ha b d]
      rintro (⟨hba, _⟩ | ⟨_, hm⟩)
      · omega
      · exact hb ((Hp a (b, d) hm).2)
  · rw [createNeighboursFrame_getD_ge L (L / (subcellsInRow L skin : ℚ)) cutoff
      (subcellsInRow L skin) positions hd nx a (le_of_not_lt ha)]
    simp only [List.not_mem_nil, false_iff]
    by_cases hb : b < positions.length
    · rw [frame_mem_iff L (L / (subcellsInRow L skin : ℚ)) cutoff (subcellsInRow L skin)
        positions hd nx Hp b hb a d]
      rintro (⟨hab, _⟩ | ⟨_, hm⟩)
      · omega
      · exact ha ((Hp b (a, d) hm).2)
    · rw [createNeighboursFrame_getD_ge L (L / (subcellsInRow L skin : ℚ)) cutoff
        (subcellsInRow L skin) positions hd nx b (le_of_not_lt hb)]
      simp

/-- Witness for claim C2 at the periodic-wrap configuration: box 10, skin and
cutoff 3, particles `(0,0,0)` and `(9,0,0)`; the mutual entries carry the same
stored (squared) distance 1. -/
theorem claim_C2_witness :
    ((1, 1) ∈ (createNeighboursFrame 10 (10 / (subcellsInRow 10 3 : ℚ)) 3 (subcellsInRow 10 3)
        [⟨0, 0, 0⟩, ⟨9, 0, 0⟩] (((List.replicate 64 (-1)).set 0 0).set 3 1) [-1, -1]).getD 0 [] ↔
      (0, 1) ∈ (createNeighboursFrame 10 (10 / (subcellsInRow 10 3 : ℚ)) 3 (subcellsInRow 10 3)
        [⟨0, 0, 0⟩, ⟨9, 0, 0⟩] (((List.replicate 64 (-1)).set 0 0).set 3 1) [-1, -1]).getD 1 []) :=
  claim_C2_frame_symmetric 10 3 3 [⟨0, 0, 0⟩, ⟨9, 0, 0⟩]
    (((List.replicate 64 (-1)).set 0 0).set 3 1) [-1, -1]
    (by
      simp only [createNeighbours]
      rw [subcellsInRow_10_3]
      norm_num [createNeighboursAux, findSubcell, insertParticle, List.enum, List.enumFrom]
      rfl)
    0 1 1

/-- Claim C1 (amended): for a cache produced by a full rebuild over particle
ids `0..N-1` (a successful build, in-box positions, grid of at least 3 subcells
per row): every stored (squared) distance `d²` satisfies `0 < d² ≤ cutoff²`, no
particle is its own neighbour, within `pairs(i)` a candidate `j` is kept only
when `j > i`, and any unordered pair that the search finds appears in the cache
exactly once as one symmetric pair (equal multiplicity on both rows, at most
one occurrence).  The original claim's completeness part — that every pair with
true minimum-image distance `≤ cutoffRadius` appears — is refuted separately:
the 3×3×3 stencil misses in-range pairs whose subcells differ by more than one,
which occurs whenever the cutoff exceeds the subcell length. -/
theorem claim_C1_amended_cache_properties (L skin cutoff : ℚ) (positions : List Vec3)
    (hd nx : List ℤ)
    (hok : createNeighbours L skin positions = Except.ok (hd, nx))
    (hL : 0 < L)
    (hbox : ∀ p ∈ positions, inBox L p)
    (hm : 3 ≤ subcellsInRow L skin) :
    (∀ a : ℕ, ∀ e ∈ (createNeighboursFrame L (L / (subcellsInRow L skin : ℚ)) cutoff
        (subcellsInRow L skin) positions hd nx).getD a [],
      0 < e.2 ∧ e.2 ≤ cutoff ^ 2) ∧
    (∀ a : ℕ, ∀ d : ℚ, (a, d) ∉ (createNeighboursFrame L (L / (subcellsInRow L skin : ℚ))
        cutoff (subcellsInRow L skin) positions hd nx).getD a []) ∧
    (∀ i : ℕ, ∀ e ∈ neighboursForOne L (L / (subcellsInRow L skin : ℚ)) cutoff
        (subcellsInRow L skin) positions hd nx i, i < e.1) ∧
    (∀ a b : ℕ, a < positions.length → b < positions.length → a ≠ b →
      List.count b (((createNeighboursFrame L (L / (subcellsInRow L skin : ℚ)) cutoff
          (subcellsInRow L skin) positions hd nx).getD a []).map Prod.fst) =
        List.count a (((createNeighboursFrame L (L / (subcellsInRow L skin : ℚ)) cutoff
          (subcellsInRow L skin) positions hd nx).getD b []).map Prod.fst) ∧
      List.count b (((createNeighboursFrame L (L / (subcellsInRow L skin : ℚ)) cutoff
          (subcellsInRow L skin) positions hd nx).getD a []).map Prod.fst) ≤ 1) := by
  have Hp := neighboursForOne_mem_of_ok L skin cutoff positions hd nx hok
  refine ⟨?_, ?_, ?_, ?_⟩
  · intro a e he
    by_cases ha : a < positions.length
    · obtain ⟨b, d⟩ := e
      rcases (frame_mem_iff L (L / (subcellsInRow L skin : ℚ)) cutoff (subcellsInRow L skin)
          positions hd nx Hp a ha b d).mp he with ⟨_, hm'⟩ | ⟨_, hm'⟩
      · have h2 := neighboursForOne_mem L (L / (subcellsInRow L skin : ℚ)) cutoff
          (subcellsInRow L skin) positions hd nx b (a, d) hm'
        exact ⟨h2.2.1, h2.2.2.1⟩
      · have h2 := neighboursForOne_mem L (L / (subcellsInRow L skin : ℚ)) cutoff
          (subcellsInRow L skin) positions hd nx a (b, d) hm'
        exact ⟨h2.2.1, h2.2.2.1⟩
    · rw [createNeighboursFrame_getD_ge L (L / (subcellsInRow L skin : ℚ)) cutoff
        (subcellsInRow L skin) positions hd nx a (le_of_not_lt ha)] at he
      simp at he
  · intro a d hmem
    by_cases ha : a < positions.length
    · rcases (frame_mem_iff L (L / (subcellsInRow L skin : ℚ)) cutoff (subcellsInRow L skin)
          positions hd nx Hp a ha a d).mp hmem with ⟨h1, _⟩ | ⟨h1, _⟩ <;> omega
    · rw [createNeighboursFrame_getD_ge L (L / (subcellsInRow L skin : ℚ)) cutoff
        (subcellsInRow L skin) positions hd nx a (le_of_not_lt ha)] at hmem
      simp at hmem
  · intro i e he
    exact (neighboursForOne_mem L (L / (subcellsInRow L skin : ℚ)) cutoff
      (subcellsInRow L skin) positions hd nx i e he).1
  · intro a b ha hb hab
    rw [frame_count_ids L (L / (subcellsInRow L skin : ℚ)) cutoff (subcellsInRow L skin)
        positions hd nx Hp a ha b,
      frame_count_ids L (L / (subcellsInRow L skin : ℚ)) cutoff (subcellsInRow L skin)
        positions hd nx Hp b hb a]
    have hnodup : ∀ i : ℕ, i < positions.length →
        ∀ c : ℕ, List.count c ((neighboursForOne L (L / (subcellsInRow L skin : ℚ)) cutoff
          (subcellsInRow L skin) positions hd nx i).map Prod.fst) ≤ 1 := by
      intro i hi c
      exact List.nodup_iff_count_le_one.mp
        (neighboursForOne_fst_nodup L skin cutoff positions hd nx hok hL hbox hm i hi) c
    rcases Nat.lt_trichotomy a b with h | h | h
    · have h2 : ¬ b < a := by omega
      constructor
      · simp [h, h2]
      · simp [h, h2]
        exact hnodup a ha b
    · omega
    · have h2 : ¬ a < b := by omega
      constructor
      · simp [h, h2]
      · simp [h, h2]
        exact hnodup b hb a

/-- Witness for the amended claim C1 at the periodic-wrap configuration (box
10, skin and cutoff 3, two particles): the hypotheses hold and the cache has
the stated properties. -/
theorem claim_C1_amended_witness :
    (0 : ℚ) < 10 ∧ 3 ≤ subcellsInRow 10 3 ∧
    ((∀ a : ℕ, ∀ e ∈ (createNeighboursFrame 10 (10 / (subcellsInRow 10 3 : ℚ)) 3
        (subcellsInRow 10 3) [⟨0, 0, 0⟩, ⟨9, 0, 0⟩]
        (((List.replicate 64 (-1)).set 0 0).set 3 1) [-1, -1]).getD a [],
      0 < e.2 ∧ e.2 ≤ (3 : ℚ) ^ 2) ∧
    (∀ a : ℕ, ∀ d : ℚ, (a, d) ∉ (createNeighboursFrame 10 (10 / (subcellsInRow 10 3 : ℚ)) 3
        (subcellsInRow 10 3) [⟨0, 0, 0⟩, ⟨9, 0, 0⟩]
        (((List.replicate 64 (-1)).set 0 0).set 3 1) [-1, -1]).getD a []) ∧
    (∀ i : ℕ, ∀ e ∈ neighboursForOne 10 (10 / (subcellsInRow 10 3 : ℚ)) 3
        (subcellsInRow 10 3) [⟨0, 0, 0⟩, ⟨9, 0, 0⟩]
        (((List.replicate 64 (-1)).set 0 0).set 3 1) [-1, -1] i, i < e.1) ∧
    (∀ a b : ℕ, a < ([⟨0, 0, 0⟩, ⟨9, 0, 0⟩] : List Vec3).length →
      b < ([⟨0, 0, 0⟩, ⟨9, 0, 0⟩] : List Vec3).length → a ≠ b →
      List.count b (((createNeighboursFrame 10 (10 / (subcellsInRow 10 3 : ℚ)) 3
          (subcellsInRow 10 3) [⟨0, 0, 0⟩, ⟨9, 0, 0⟩]
          (((List.replicate 64 (-1)).set 0 0).set 3 1) [-1, -1]).getD a []).map Prod.fst) =
        List.count a (((createNeighboursFrame 10 (10 / (subcellsInRow 10 3 : ℚ)) 3
          (subcellsInRow 10 3) [⟨0, 0, 0⟩, ⟨9, 0, 0⟩]
          (((List.replicate 64 (-1)).set 0 0).set 3 1) [-1, -1]).getD b []).map Prod.fst) ∧
      List.count b (((createNeighboursFrame 10 (10 / (subcellsInRow 10 3 : ℚ)) 3
          (subcellsInRow 10 3) [⟨0, 0, 0⟩, ⟨9, 0, 0⟩]
          (((List.replicate 64 (-1)).set 0 0).set 3 1) [-1, -1]).getD a []).map Prod.fst)
        ≤ 1)) :=
  ⟨by norm_num,
   by rw [subcellsInRow_10_3]; norm_num,
   claim_C1_amended_cache_properties 10 3 3 [⟨0, 0, 0⟩, ⟨9, 0, 0⟩]
     (((List.replicate 64 (-1)).set 0 0).set 3 1) [-1, -1]
     (by
       simp only [createNeighbours]
       rw [subcellsInRow_10_3]
       norm_num [createNeighboursAux, findSubcell, insertParticle, List.enum, List.enumFrom]
       rfl)
     (by norm_num)
     (by
       intro p hp
       rcases List.mem_cons.mp hp with h | h
       · subst h
         norm_num [inBox]
       · rcases List.mem_cons.mp h with h2 | h2
         · subst h2
           norm_num [inBox]
         · simp at h2)
     (by rw [subcellsInRow_10_3]; norm_num)⟩

/-- Counterexample to claim C1 as stated: box 10, skin and cutoff 3 (grid
`m = 4`, subcell length `5/2`), particles at `(12/5,0,0)` and `(51/10,0,0)`.
Their true minimum-image distance is `27/10 ≤ 3` (squared: `729/100 ≤ 9`), a
distinct pair within the cutoff, yet the rebuilt cache is empty on both rows —
the pair never appears: the particles sit in subcells 0 and 2, more than one
subcell apart, so the 3×3×3 stencil never pairs them. -/
theorem claim_C1_counterexample :
    0 < minImageDistSq 10 ⟨12 / 5, 0, 0⟩ ⟨51 / 10, 0, 0⟩ ∧
    minImageDistSq 10 ⟨12 / 5, 0, 0⟩ ⟨51 / 10, 0, 0⟩ ≤ 3 ^ 2 ∧
    (createNeighbours 10 3 [⟨12 / 5, 0, 0⟩, ⟨51 / 10, 0, 0⟩]).toOption.map
      (fun hn => createNeighboursFrame 10 (10 / (subcellsInRow 10 3 : ℚ)) 3
        (subcellsInRow 10 3) [⟨12 / 5, 0, 0⟩, ⟨51 / 10, 0, 0⟩] hn.1 hn.2) =
      some [[], []] := by
  have habs : |(27 / 10 : ℚ)| = 27 / 10 := abs_of_nonneg (by norm_num)
  refine ⟨?_, ?_, ?_⟩
  · norm_num [minImageDistSq, min_def, abs_sub_comm, habs]
  · norm_num [minImageDistSq, min_def, abs_sub_comm, habs]
  · simp only [createNeighbours, Except.toOption]
    rw [subcellsInRow_10_3]
    norm_num [createNeighboursAux, findSubcell, insertParticle, List.enum, List.enumFrom,
      createNeighboursFrame, frameStep, frameAddSym, neighboursForOne, candidatesFor,
      neighbourSubcells, stencilCellId, stencilCoords, subcellId3d, cellY, cellZ, wrapCoord,
      chainWalk, keepPair, distanceSq, axisDistance, List.range_succ,
      List.getElem_set, List.getElem?_set, List.getElem_replicate, List.getElem?_replicate,
      List.filterMap_cons, List.filterMap_nil, List.foldl_cons, List.foldl_nil]
    rfl

/-- Claim C10: for a particle position whose coordinates lie in
`[0, boxLength)`, every id produced by the 27-subcell stencil enumeration lies
in `[0, subcellsPerRow³)`, and the head array of a successful build has length
exactly `subcellsPerRow³`, so every lookup of a stencil id in the head array
during candidate enumeration is in bounds. -/
theorem claim_C10_stencil_ids_in_bounds (L skin : ℚ) (positions : List Vec3) (p : Vec3)
    (hd nx : List ℤ) (hok : createNeighbours L skin positions = Except.ok (hd, nx))
    (hskin : 0 < skin) (hL : 0 < L) (hbox : inBox L p) :
    hd.length = subcellsInRow L skin ^ 3 ∧
    ∀ c ∈ neighbourSubcells (L / (subcellsInRow L skin : ℚ)) (subcellsInRow L skin) p,
      c < subcellsInRow L skin ^ 3 := by
  have hinv := createNeighbours_inv L skin positions (hd, nx) hok
  refine ⟨hinv.headLen, ?_⟩
  intro c hc
  rcases List.mem_map.mp hc with ⟨k, _, hck⟩
  subst hck
  have hm1 : 1 ≤ subcellsInRow L skin := one_le_subcellsInRow L skin
  set m := subcellsInRow L skin with hmdef
  unfold stencilCellId
  set co := stencilCoords (L / (m : ℚ)) p k with hco
  have rx := wrapCoord_range m hm1 co.1
  have ry := wrapCoord_range m hm1 co.2.1
  have rz := wrapCoord_range m hm1 co.2.2
  have hmz0 : (0 : ℤ) ≤ (m : ℤ) := Int.natCast_nonneg m
  have h1 : wrapCoord m co.2.1 * (m : ℤ) ≤ ((m : ℤ) - 1) * (m : ℤ) :=
    mul_le_mul_of_nonneg_right ry.2 hmz0
  have h2 : wrapCoord m co.2.2 * (m : ℤ) ^ 2 ≤ ((m : ℤ) - 1) * (m : ℤ) ^ 2 :=
    mul_le_mul_of_nonneg_right rz.2 (by positivity)
  have h3 : 0 ≤ wrapCoord m co.2.1 * (m : ℤ) := mul_nonneg ry.1 hmz0
  have h4 : 0 ≤ wrapCoord m co.2.2 * (m : ℤ) ^ 2 := mul_nonneg rz.1 (by positivity)
  have hcast : ((m ^ 3 : ℕ) : ℤ) = (m : ℤ) ^ 3 := by push_cast; ring
  have hub : wrapCoord m co.1 + wrapCoord m co.2.1 * (m : ℤ) +
      wrapCoord m co.2.2 * (m : ℤ) ^ 2 < ((m ^ 3 : ℕ) : ℤ) := by
    rw [hcast]
    nlinarith [rx.2, h1, h2]
  have hlb : 0 ≤ wrapCoord m co.1 + wrapCoord m co.2.1 * (m : ℤ) +
      wrapCoord m co.2.2 * (m : ℤ) ^ 2 := by linarith [rx.1, h3, h4]
  show (wrapCoord m co.1 + wrapCoord m co.2.1 * (m : ℤ) +
    wrapCoord m co.2.2 * (m : ℤ) ^ 2).natAbs < m ^ 3
  omega

/-- Witness for claim C10: box 10, skin 3 (grid 4³ = 64), one particle at the
origin for the build, and the query position `(1,2,3)`; all 27 stencil ids are
below 64, the length of the head array. -/
theorem claim_C10_witness :
    ((List.replicate 64 (-1 : ℤ)).set 0 0).length = subcellsInRow 10 3 ^ 3 ∧
    ∀ c ∈ neighbourSubcells (10 / (subcellsInRow 10 3 : ℚ)) (subcellsInRow 10 3)
      ⟨1, 2, 3⟩, c < subcellsInRow 10 3 ^ 3 :=
  claim_C10_stencil_ids_in_bounds 10 3 [⟨0, 0, 0⟩] ⟨1, 2, 3⟩
    ((List.replicate 64 (-1)).set 0 0) [-1]
    (by
      simp only [createNeighbours]
      rw [subcellsInRow_10_3]
      norm_num [createNeighboursAux, findSubcell, insertParticle, List.enum, List.enumFrom])
    (by norm_num) (by norm_num)
    (by norm_num [inBox])

end nbp
